import Mathlib

/-!
# Verification of the resilient external-call pipeline

Shallow embedding of the four utilities of this repository
(`processPromiseQueue`, `makeResilientAiCall`, `smartFetch`, `parseSitemap`,
all from `src/index.tsx`, with near-duplicate copies in `src/unnamed/`).

Modelling conventions:
* A JavaScript promise that either resolves or rejects is modelled as
  `Except`: a function body whose exceptions are all caught becomes a total
  Lean function; a function that can reject returns `.error`.
* The browser `fetch` is an oracle passed in as an argument; calls to it are
  recorded in an explicit log so that "which requests were issued, in which
  order, with which options" is observable.
* Timed waits (`setTimeout`) are recorded as a list of delay durations (in
  milliseconds, as rationals); `Math.random()` jitter is an input stream.
* The sitemap "network" is a finite association list from URL to the outcome
  of fetching-and-XML-parsing that URL; recursion is driven by fuel and we
  prove the fuel is irrelevant once it exceeds the number of unvisited
  network nodes (termination).
-/

namespace WpOptimizer

/-! ## Sequential Task Queue (`processPromiseQueue`, src/index.tsx:828-845)

```js
const processPromiseQueue = async (items, promiseFn, onProgress, delay = 1000) => {
    const results = [];
    for (let i = 0; i < items.length; i++) {
        const item = items[i];
        try {
            const result = await promiseFn(item);
            results.push({ status: 'fulfilled', value: result });
            if (onProgress) onProgress({ item, result, index: i, success: true });
        } catch (error) {
            results.push({ status: 'rejected', reason: error });
            if (onProgress) onProgress({ item, error, index: i, success: false });
        }
        if (i < items.length - 1) { await new Promise(r => setTimeout(r, delay)); }
    }
    return results;
};
```

The per-item async function is modelled as `promiseFn : α → Except ε β`
(resolve or reject).  The pushed result record `{status:'fulfilled', value}` /
`{status:'rejected', reason}` is `JobResult`.  The record handed to the
progress callback, `{item, result, index, success:true}` or
`{item, error, index, success:false}`, is `ProgressRecord`; the sequence of
callback invocations is returned as a log.  The inter-item `setTimeout` wait
has no observable effect on results and is not modelled. -/

/-- The record pushed onto `results`: a tagged outcome, exactly the fields
the source pushes (`status` plus `value` or `reason`). -/
inductive JobResult (β ε : Type) : Type
  | fulfilled (value : β) : JobResult β ε
  | rejected (reason : ε) : JobResult β ε
  deriving DecidableEq, Repr

/-- The record passed to `onProgress`: `{item, result?, error?, index, success}`. -/
structure ProgressRecord (α β ε : Type) : Type where
  item : α
  result : Option β
  error : Option ε
  index : Nat
  success : Bool
  deriving DecidableEq, Repr

/-- One loop iteration: the `try/catch` around `await promiseFn(item)`. -/
def queueStep {α β ε : Type} (promiseFn : α → Except ε β) (item : α) (i : Nat) :
    JobResult β ε × ProgressRecord α β ε :=
  match promiseFn item with
  | .ok v => (JobResult.fulfilled v, ⟨item, some v, none, i, true⟩)
  | .error e => (JobResult.rejected e, ⟨item, none, some e, i, false⟩)

/-- The loop of `processPromiseQueue`, threading the running index `i`. -/
def processQueueGo {α β ε : Type} (promiseFn : α → Except ε β) :
    List α → Nat → List (JobResult β ε) × List (ProgressRecord α β ε)
  | [], _ => ([], [])
  | item :: rest, i =>
    let s := queueStep promiseFn item i
    let r := processQueueGo promiseFn rest (i + 1)
    (s.1 :: r.1, s.2 :: r.2)

/-- `processPromiseQueue(items, promiseFn, onProgress, delay)`: returns the
`results` list together with the sequence of progress-callback records.  The
body catches every rejection of `promiseFn`, so the function itself is total
(the promise it returns never rejects). -/
def processPromiseQueue {α β ε : Type} (items : List α) (promiseFn : α → Except ε β) :
    List (JobResult β ε) × List (ProgressRecord α β ε) :=
  processQueueGo promiseFn items 0

/-- The outcome recorded for one item, as a function of the item alone. -/
def itemOutcome {α β ε : Type} (promiseFn : α → Except ε β) (a : α) : JobResult β ε :=
  match promiseFn a with
  | .ok v => JobResult.fulfilled v
  | .error e => JobResult.rejected e

theorem processQueueGo_length {α β ε : Type} (promiseFn : α → Except ε β) :
    ∀ (items : List α) (i : Nat),
      (processQueueGo promiseFn items i).1.length = items.length ∧
      (processQueueGo promiseFn items i).2.length = items.length := by
  intro items
  induction items with
  | nil => intro i; exact ⟨rfl, rfl⟩
  | cons a rest ih =>
    intro i
    have h := ih (i + 1)
    simp [processQueueGo, h.1, h.2]

theorem processQueueGo_get {α β ε : Type} (promiseFn : α → Except ε β) :
    ∀ (items : List α) (i : Nat) (j : Nat) (hj : j < items.length),
      (processQueueGo promiseFn items i).1.get
          ⟨j, by rw [(processQueueGo_length promiseFn items i).1]; exact hj⟩ =
        itemOutcome promiseFn (items.get ⟨j, hj⟩) ∧
      (processQueueGo promiseFn items i).2.get
          ⟨j, by rw [(processQueueGo_length promiseFn items i).2]; exact hj⟩ =
        (queueStep promiseFn (items.get ⟨j, hj⟩) (i + j)).2 := by
  intro items
  induction items with
  | nil => intro i j hj; exact absurd hj (by simp)
  | cons a rest ih =>
    intro i j hj
    cases j with
    | zero =>
      constructor
      · show (queueStep promiseFn a i).1 = itemOutcome promiseFn a
        cases h : promiseFn a <;> simp [queueStep, itemOutcome, h]
      · rfl
    | succ k =>
      have hk : k < rest.length := Nat.lt_of_succ_lt_succ hj
      have h := ih (i + 1) k hk
      constructor
      · exact h.1
      · have := h.2
        simpa [Nat.add_assoc, Nat.add_comm 1 k] using this

theorem processQueue_getElem {α β ε : Type} (promiseFn : α → Except ε β)
    (items : List α) (j : Nat) (hj : j < items.length) :
    (processPromiseQueue items promiseFn).1[j]? = some (itemOutcome promiseFn items[j]) ∧
    (processPromiseQueue items promiseFn).2[j]? =
      some (queueStep promiseFn items[j] j).2 := by
  have hlen := processQueueGo_length promiseFn items 0
  have h := processQueueGo_get promiseFn items 0 j hj
  have h1 : j < (processPromiseQueue items promiseFn).1.length := by
    unfold processPromiseQueue; rw [hlen.1]; exact hj
  have h2 : j < (processPromiseQueue items promiseFn).2.length := by
    unfold processPromiseQueue; rw [hlen.2]; exact hj
  constructor
  · rw [List.getElem?_eq_getElem h1]
    have := h.1
    simp only [List.get_eq_getElem] at this
    exact congrArg some this
  · rw [List.getElem?_eq_getElem h2]
    have := h.2
    simp only [List.get_eq_getElem] at this
    show some ((processQueueGo promiseFn items 0).2[j]) = _
    rw [this]
    simp

end WpOptimizer

namespace WpOptimizer

/-! ## Claim theorems for the Sequential Task Queue -/

/-- C1 (counterexample): the claim says the Job Result record at position `i`
"carries the original item and its index `i`".  It does not: the pushed
record is only `{status, value}` / `{status, reason}`.  Two different
single-item input lists whose per-item function returns the same value
produce *identical* Job Result lists, so the result record cannot carry the
original item. -/
theorem queue_result_record_lacks_item :
    (processPromiseQueue [0] (fun _ => (Except.ok 7 : Except String Nat))).1 =
      (processPromiseQueue [1] (fun _ => (Except.ok 7 : Except String Nat))).1 ∧
    (0 : Nat) ≠ 1 := by
  exact ⟨rfl, by decide⟩

/-- C1 (amended): `processPromiseQueue` returns a Job Result list of the same
length as the input, where the result at position `i` is the tagged outcome
of the per-item function on `L[i]` (input order preserved, regardless of
which items failed); the original item and its index are carried not by the
result record but by the record handed to the progress callback for step `i`. -/
theorem queue_results_indexed {α β ε : Type} (items : List α)
    (promiseFn : α → Except ε β) (j : Nat) (hj : j < items.length) :
    (processPromiseQueue items promiseFn).1.length = items.length ∧
    (processPromiseQueue items promiseFn).1[j]? =
      some (itemOutcome promiseFn items[j]) ∧
    ((processPromiseQueue items promiseFn).2[j]?.map ProgressRecord.item) =
      some items[j] ∧
    ((processPromiseQueue items promiseFn).2[j]?.map ProgressRecord.index) =
      some j := by
  have hlen := processQueueGo_length promiseFn items 0
  have h := processQueue_getElem promiseFn items j hj
  refine ⟨hlen.1, h.1, ?_, ?_⟩
  · rw [h.2]
    cases hpf : promiseFn items[j] <;> simp [queueStep, hpf]
  · rw [h.2]
    cases hpf : promiseFn items[j] <;> simp [queueStep, hpf]

/-- C1 (witness). -/
theorem queue_results_indexed_witness :
    (processPromiseQueue ["a", "b"] (fun s => (Except.error s : Except String Nat))).1.length
        = 2 ∧
    (processPromiseQueue ["a", "b"] (fun s => (Except.error s : Except String Nat))).1[1]? =
      some (itemOutcome (fun s => (Except.error s : Except String Nat)) "b") ∧
    ((processPromiseQueue ["a", "b"]
        (fun s => (Except.error s : Except String Nat))).2[1]?.map ProgressRecord.item) =
      some "b" ∧
    ((processPromiseQueue ["a", "b"]
        (fun s => (Except.error s : Except String Nat))).2[1]?.map ProgressRecord.index) =
      some 1 :=
  queue_results_indexed ["a", "b"] (fun s => (Except.error s : Except String Nat)) 1
    (by decide)

/-- C6: the queue never rejects (its embedding is a total function — every
rejection of the per-item function is caught by the `try/catch`): an error
`e` thrown by the per-item function for the item at index `j` is captured as
the rejected Job Result at position `j`, and every item after `j` is still
processed and recorded (the result list always has full length, with each
position holding that item's own outcome). -/
theorem queue_never_rejects {α β ε : Type} (items : List α)
    (promiseFn : α → Except ε β) (j : Nat) (hj : j < items.length) (e : ε)
    (hfail : promiseFn items[j] = .error e) :
    (processPromiseQueue items promiseFn).1[j]? = some (JobResult.rejected e) ∧
    (processPromiseQueue items promiseFn).1.length = items.length ∧
    (∀ k (hk : k < items.length),
      (processPromiseQueue items promiseFn).1[k]? =
        some (itemOutcome promiseFn items[k])) := by
  refine ⟨?_, (processQueueGo_length promiseFn items 0).1,
    fun k hk => (processQueue_getElem promiseFn items k hk).1⟩
  rw [(processQueue_getElem promiseFn items j hj).1]
  simp [itemOutcome, hfail]

/-- C6 (witness): the middle item fails, the queue still records all three
outcomes in order (the end-to-end scenario of the spec with
`items = [t1, t2, t3]`, failure only for `t2`). -/
theorem queue_never_rejects_witness :
    (processPromiseQueue ["t1", "t2", "t3"]
        (fun s => if s = "t2" then (Except.error "boom" : Except String String)
                  else Except.ok s)).1[1]? =
      some (JobResult.rejected "boom") ∧
    (processPromiseQueue ["t1", "t2", "t3"]
        (fun s => if s = "t2" then (Except.error "boom" : Except String String)
                  else Except.ok s)).1.length = 3 ∧
    (∀ k (hk : k < (["t1", "t2", "t3"] : List String).length),
      (processPromiseQueue ["t1", "t2", "t3"]
          (fun s => if s = "t2" then (Except.error "boom" : Except String String)
                    else Except.ok s)).1[k]? =
        some (itemOutcome
          (fun s => if s = "t2" then (Except.error "boom" : Except String String)
                    else Except.ok s) (["t1", "t2", "t3"] : List String)[k])) :=
  queue_never_rejects ["t1", "t2", "t3"]
    (fun s => if s = "t2" then (Except.error "boom" : Except String String)
              else Except.ok s) 1 (by decide) "boom" (by rfl)

end WpOptimizer

namespace WpOptimizer

/-! ## Resilient Call Wrapper (`makeResilientAiCall`, src/index.tsx:857-891)

```js
const makeResilientAiCall = async (apiCallFn, maxRetries = 3, initialDelay = 2000) => {
    let lastError = null;
    for (let i = 0; i < maxRetries; i++) {
        try { return await apiCallFn(); }
        catch (error) {
            lastError = error;
            if (i >= maxRetries - 1) { throw error; } // Throw after final attempt
            const isRateLimitError = ((error.status === 429) ||
                (error.message && error.message.includes('429')) ||
                (error.message && error.message.toLowerCase().includes('rate limit')));
            let delay = 1000; // Default delay for non-rate-limit errors
            if (isRateLimitError) { delay = initialDelay * Math.pow(2, i) + Math.random() * 1000; }
            await new Promise(resolve => setTimeout(resolve, delay));
        }
    }
    throw new Error(`AI call failed after ${maxRetries} attempts. Last error: ${lastError?.message}`);
};
```

`apiCallFn` is modelled attempt-indexed (`Nat → Except JsError T`) so an
operation may behave differently on different attempts.  `maxRetries` is an
`Int` (a JS number may be non-positive).  The timed waits are returned as the
list of delay durations in ms; `Math.random() * 1000` is an input stream
`jitter : Nat → ℚ` (one draw per attempt index).  The loop is driven by the
remaining-attempt count `maxRetries - i`, so `fuel = 1` is the final attempt. -/

/-- A JavaScript error as inspected by the wrapper: an optional numeric
`status` and an optional `message` (both may be `undefined`). -/
structure JsError : Type where
  status : Option Int
  message : Option String
  deriving DecidableEq, Repr

/-- JS `String.prototype.includes`: `pat` occurs contiguously in `s`. -/
def strContainsSub (s pat : String) : Bool :=
  s.toList.tails.any (fun t => pat.toList.isPrefixOf t)

/-- ASCII lower-casing of one character (the fragment of JS `toLowerCase`
relevant to matching the ASCII pattern "rate limit"). -/
def charToLower (c : Char) : Char :=
  if 'A' ≤ c ∧ c ≤ 'Z' then Char.ofNat (c.toNat + 32) else c

/-- JS `String.prototype.toLowerCase`, modelled on the ASCII range. -/
def strToLower (s : String) : String := String.mk (s.toList.map charToLower)

/-- The `isRateLimitError` classification from the source (the `&&` guards
on `error.message` make an absent message classify as false). -/
def isRateLimitError (e : JsError) : Bool :=
  (e.status == some 429) ||
  (match e.message with | some m => strContainsSub m "429" | none => false) ||
  (match e.message with | some m => strContainsSub (strToLower m) "rate limit" | none => false)

/-- The message of the fallback `new Error(...)` after the loop
(`lastError?.message` prints as `undefined` when absent). -/
def fallbackMessage (maxRetries : Int) (lastError : Option JsError) : String :=
  "AI call failed after " ++ toString maxRetries ++ " attempts. Last error: " ++
    (match lastError with
     | some e => match e.message with | some m => m | none => "undefined"
     | none => "undefined")

/-- The fallback error thrown after the loop: a fresh `Error` (no status). -/
def fallbackError (maxRetries : Int) (lastError : Option JsError) : JsError :=
  ⟨none, some (fallbackMessage maxRetries lastError)⟩

/-- The wait before retrying attempt `i + 1`: exponential backoff with jitter
for rate-limit errors, a flat 1000 ms otherwise. -/
def retryDelay (initialDelay : ℚ) (jitter : Nat → ℚ) (i : Nat) (e : JsError) : ℚ :=
  if isRateLimitError e then initialDelay * 2 ^ i + jitter i else 1000

/-- The retry loop; `fuel = maxRetries - i` is the number of attempts left,
`i` the 0-based attempt index, third argument the running `lastError`. -/
def resilientLoop {T : Type} (apiCallFn : Nat → Except JsError T) (maxRetries : Int)
    (initialDelay : ℚ) (jitter : Nat → ℚ) :
    Nat → Nat → Option JsError → Except JsError T × List ℚ
  | 0, _, lastError => (.error (fallbackError maxRetries lastError), [])
  | fuel + 1, i, _ =>
    match apiCallFn i with
    | .ok v => (.ok v, [])
    | .error e =>
      if fuel = 0 then (.error e, [])
      else
        let d := retryDelay initialDelay jitter i e
        let r := resilientLoop apiCallFn maxRetries initialDelay jitter fuel (i + 1) (some e)
        (r.1, d :: r.2)

/-- `makeResilientAiCall(apiCallFn, maxRetries, initialDelay)`: the result
(resolved value or rejection error) together with the list of waits slept. -/
def makeResilientAiCall {T : Type} (apiCallFn : Nat → Except JsError T)
    (maxRetries : Int) (initialDelay : ℚ) (jitter : Nat → ℚ) :
    Except JsError T × List ℚ :=
  resilientLoop apiCallFn maxRetries initialDelay jitter maxRetries.toNat 0 none

theorem resilientLoop_allFail {T : Type} (apiCallFn : Nat → Except JsError T)
    (maxRetries : Int) (initialDelay : ℚ) (jitter : Nat → ℚ) (errs : Nat → JsError) :
    ∀ (fuel : Nat) (i : Nat) (lastError : Option JsError),
      (∀ d, d ≤ fuel → apiCallFn (i + d) = .error (errs (i + d))) →
      (resilientLoop apiCallFn maxRetries initialDelay jitter (fuel + 1) i lastError).1 =
        .error (errs (i + fuel)) := by
  intro fuel
  induction fuel with
  | zero =>
    intro i lastError h
    have h0 : apiCallFn i = .error (errs i) := by simpa using h 0 (Nat.le_refl 0)
    simp [resilientLoop, h0]
  | succ n ih =>
    intro i lastError h
    have h0 : apiCallFn i = .error (errs i) := by
      simpa using h 0 (Nat.zero_le _)
    have hrest : ∀ d, d ≤ n → apiCallFn (i + 1 + d) = .error (errs (i + 1 + d)) := by
      intro d hd
      have := h (d + 1) (by omega)
      simpa [Nat.add_assoc, Nat.add_comm 1 d] using this
    have hrec := ih (i + 1) (some (errs i)) hrest
    simp only [resilientLoop, h0]
    rw [if_neg (Nat.succ_ne_zero n)]
    simpa [Nat.add_assoc, Nat.add_comm 1 n] using hrec

theorem resilientLoop_delays {T : Type} (apiCallFn : Nat → Except JsError T)
    (maxRetries : Int) (initialDelay : ℚ) (jitter : Nat → ℚ) (errs : Nat → JsError) :
    ∀ (j : Nat) (fuel : Nat) (i : Nat) (lastError : Option JsError),
      (∀ d, d ≤ j → apiCallFn (i + d) = .error (errs (i + d))) →
      j + 1 < fuel →
      (resilientLoop apiCallFn maxRetries initialDelay jitter fuel i lastError).2[j]? =
        some (retryDelay initialDelay jitter (i + j) (errs (i + j))) := by
  intro j
  induction j with
  | zero =>
    intro fuel i lastError h hfuel
    obtain ⟨f, rfl⟩ : ∃ f, fuel = f + 1 := ⟨fuel - 1, by omega⟩
    have h0 : apiCallFn i = .error (errs i) := by simpa using h 0 (by omega)
    have hf : f ≠ 0 := by omega
    simp [resilientLoop, h0, hf]
  | succ k ih =>
    intro fuel i lastError h hfuel
    obtain ⟨f, rfl⟩ : ∃ f, fuel = f + 1 := ⟨fuel - 1, by omega⟩
    have h0 : apiCallFn i = .error (errs i) := by simpa using h 0 (by omega)
    have hf : f ≠ 0 := by omega
    have hrest : ∀ d, d ≤ k → apiCallFn (i + 1 + d) = .error (errs (i + 1 + d)) := by
      intro d hd
      have := h (d + 1) (by omega)
      simpa [Nat.add_assoc, Nat.add_comm 1 d] using this
    have hrec := ih f (i + 1) (some (errs i)) hrest (by omega)
    simp only [resilientLoop, h0]
    rw [if_neg hf]
    show (retryDelay initialDelay jitter i (errs i) ::
        (resilientLoop apiCallFn maxRetries initialDelay jitter f (i + 1)
          (some (errs i))).2)[k + 1]? = _
    rw [List.getElem?_cons_succ, hrec]
    simp [Nat.add_assoc, Nat.add_comm 1 k]

/-- The spec's own wording of the rate-limit classification, written
separately from the source's `isRateLimitError` for comparison: the error
carries HTTP status 429, or its message contains the substring "429", or its
message contains the case-insensitive substring "rate limit". -/
def specRateLimitClass (e : JsError) : Prop :=
  e.status = some 429 ∨
  (∃ m, e.message = some m ∧ strContainsSub m "429" = true) ∨
  (∃ m, e.message = some m ∧ strContainsSub (strToLower m) "rate limit" = true)

/-- C2 (counterexample): with an operation that always fails with the
non-rate-limit message "boom" and `maxRetries = 3`, the wrapper rejects with
the original error `{message: "boom"}` itself (after two flat 1000 ms waits);
the rejection's message does not contain the configured attempt count "3" —
so the rejection is not annotated with the attempt count. -/
theorem resilient_rejection_unannotated :
    makeResilientAiCall (fun _ => (Except.error ⟨none, some "boom"⟩ : Except JsError Nat))
        3 2000 (fun _ => 0) =
      (.error ⟨none, some "boom"⟩, [1000, 1000]) ∧
    strContainsSub "boom" (toString (3 : Int)) = false := by
  exact ⟨by rfl, by decide⟩

/-- C2 (amended): for an operation that fails on every attempt and a positive
configured `maxRetries`, the wrapper exhausts its attempts and rejects with
the last underlying error *itself* — hence carrying that error's own message,
without any attempt-count annotation (`throw error` on the final attempt; the
annotated fallback `new Error` after the loop is unreachable for
`maxRetries ≥ 1`). -/
theorem resilient_rejects_with_last_error {T : Type}
    (apiCallFn : Nat → Except JsError T) (errs : Nat → JsError)
    (maxRetries : Int) (hpos : 1 ≤ maxRetries)
    (initialDelay : ℚ) (jitter : Nat → ℚ)
    (hfail : ∀ k, apiCallFn k = .error (errs k)) :
    (makeResilientAiCall apiCallFn maxRetries initialDelay jitter).1 =
      .error (errs (maxRetries.toNat - 1)) := by
  unfold makeResilientAiCall
  obtain ⟨f, hf⟩ : ∃ f, maxRetries.toNat = f + 1 := ⟨maxRetries.toNat - 1, by omega⟩
  rw [hf]
  have h := resilientLoop_allFail apiCallFn maxRetries initialDelay jitter errs f 0 none
    (fun d _ => hfail (0 + d))
  simpa using h

/-- C2 (witness). -/
theorem resilient_rejects_with_last_error_witness :
    (makeResilientAiCall
        (fun k => (Except.error ⟨none, some (toString k)⟩ : Except JsError Nat))
        2 2000 (fun _ => 0)).1 =
      .error ((fun k => (⟨none, some (toString k)⟩ : JsError)) ((2 : Int).toNat - 1)) :=
  resilient_rejects_with_last_error
    (fun k => (Except.error ⟨none, some (toString k)⟩ : Except JsError Nat))
    (fun k => (⟨none, some (toString k)⟩ : JsError)) 2 (by decide) 2000 (fun _ => 0)
    (fun _ => rfl)

/-- C5: (i) an error is classified rate-limit exactly per the spec's
criterion (status 429, or message containing "429", or message containing
case-insensitive "rate limit"); (ii) when the error of attempt `i` is so
classified and attempts remain (`i < maxRetries - 1`), the wait recorded
before the retry is `initialDelay * 2 ^ i + jitter i`, which for jitter drawn
from `[0, 1000)` lies in `[initialDelay * 2 ^ i, initialDelay * 2 ^ i + 1000)`. -/
theorem resilient_backoff_classification {T : Type}
    (apiCallFn : Nat → Except JsError T) (errs : Nat → JsError) (e : JsError)
    (maxRetries : Int) (initialDelay : ℚ) (jitter : Nat → ℚ) (i : Nat)
    (hfail : ∀ d, d ≤ i → apiCallFn d = .error (errs d))
    (hrl : isRateLimitError (errs i) = true)
    (hrem : (i : Int) < maxRetries - 1)
    (hj0 : 0 ≤ jitter i) (hj1 : jitter i < 1000) :
    (isRateLimitError e = true ↔ specRateLimitClass e) ∧
    (makeResilientAiCall apiCallFn maxRetries initialDelay jitter).2[i]? =
      some (initialDelay * 2 ^ i + jitter i) ∧
    (initialDelay * 2 ^ i ≤ initialDelay * 2 ^ i + jitter i ∧
      initialDelay * 2 ^ i + jitter i < initialDelay * 2 ^ i + 1000) := by
  refine ⟨?_, ?_, by constructor <;> linarith⟩
  · unfold isRateLimitError specRateLimitClass
    cases hm : e.message with
    | none => simp [hm]
    | some m => simp [hm, or_assoc]
  · have hfuel : i + 1 < maxRetries.toNat := by omega
    have h := resilientLoop_delays apiCallFn maxRetries initialDelay jitter errs i
      maxRetries.toNat 0 none (fun d hd => by simpa using hfail d hd) hfuel
    simp only [Nat.zero_add] at h
    unfold makeResilientAiCall
    rw [h]
    simp [retryDelay, hrl]

/-- C5 (witness): an always-429 operation with `maxRetries = 2`,
`initialDelay = 2000` and jitter 500 at attempt 0 waits `2000 * 2 ^ 0 + 500`. -/
theorem resilient_backoff_classification_witness :
    (isRateLimitError ⟨some 429, none⟩ = true ↔ specRateLimitClass ⟨some 429, none⟩) ∧
    (makeResilientAiCall
        (fun _ => (Except.error ⟨none, some "429"⟩ : Except JsError Nat))
        2 2000 (fun _ => 500)).2[0]? =
      some (2000 * 2 ^ 0 + (fun _ => (500 : ℚ)) 0) ∧
    ((2000 : ℚ) * 2 ^ 0 ≤ 2000 * 2 ^ 0 + (fun _ => (500 : ℚ)) 0 ∧
      (2000 : ℚ) * 2 ^ 0 + (fun _ => (500 : ℚ)) 0 < 2000 * 2 ^ 0 + 1000) :=
  resilient_backoff_classification
    (fun _ => (Except.error ⟨none, some "429"⟩ : Except JsError Nat))
    (fun _ => (⟨none, some "429"⟩ : JsError)) ⟨some 429, none⟩ 2 2000
    (fun _ => 500) 0 (fun _ _ => rfl) (by decide) (by decide)
    (by norm_num) (by norm_num)

/-- C10: for `maxRetries ≤ 0` the loop body never runs: the wrapped operation
is never invoked (the outcome is independent of it) and the call rejects with
the fallback error whose message states the configured attempt count and the
undefined last error. -/
theorem resilient_nonpositive_retries {T : Type}
    (apiCallFn apiCallFn' : Nat → Except JsError T) (maxRetries : Int)
    (hle : maxRetries ≤ 0) (initialDelay : ℚ) (jitter : Nat → ℚ) :
    makeResilientAiCall apiCallFn maxRetries initialDelay jitter =
      (.error ⟨none, some ("AI call failed after " ++ toString maxRetries ++
          " attempts. Last error: " ++ "undefined")⟩, []) ∧
    makeResilientAiCall apiCallFn maxRetries initialDelay jitter =
      makeResilientAiCall apiCallFn' maxRetries initialDelay jitter := by
  have h0 : maxRetries.toNat = 0 := Int.toNat_of_nonpos hle
  constructor
  · unfold makeResilientAiCall
    rw [h0]
    rfl
  · unfold makeResilientAiCall
    rw [h0]
    rfl

/-- C10 (witness): at `maxRetries = 0` the message is exactly
"AI call failed after 0 attempts. Last error: undefined". -/
theorem resilient_nonpositive_retries_witness :
    (makeResilientAiCall (fun k => (Except.ok k : Except JsError Nat))
        0 2000 (fun _ => 0) =
      (.error ⟨none, some ("AI call failed after " ++ toString (0 : Int) ++
          " attempts. Last error: " ++ "undefined")⟩, []) ∧
    makeResilientAiCall (fun k => (Except.ok k : Except JsError Nat))
        0 2000 (fun _ => 0) =
      makeResilientAiCall (fun _ => (Except.error ⟨none, some "x"⟩ : Except JsError Nat))
        0 2000 (fun _ => 0)) ∧
    ("AI call failed after " ++ toString (0 : Int) ++
        " attempts. Last error: " ++ "undefined") =
      "AI call failed after 0 attempts. Last error: undefined" :=
  ⟨resilient_nonpositive_retries (fun k => (Except.ok k : Except JsError Nat))
      (fun _ => (Except.error ⟨none, some "x"⟩ : Except JsError Nat)) 0 (by decide)
      2000 (fun _ => 0),
    by decide⟩

end WpOptimizer

namespace WpOptimizer

/-! ## Multi-Proxy Fetch (`smartFetch`, src/index.tsx:902-938)

```js
const smartFetch = async (url, options = {}) => {
    try {
        const directResponse = await fetch(url, options);
        if (directResponse.ok) return directResponse;
    } catch (error) {
        if (error instanceof TypeError && error.message === 'Failed to fetch') { /* fall through */ }
        else { throw error; }
    }
    const proxies = [
        { name: 'corsproxy.io', buildUrl: (t) => `https://corsproxy.io/?${t}`},
        { name: 'allorigins.win', buildUrl: (t) => `https://api.allorigins.win/raw?url=${encodeURIComponent(t)}`},
        { name: 'thingproxy.freeboard.io', buildUrl: (t) => `https://thingproxy.freeboard.io/fetch/${t}`},
        { name: 'CodeTabs', buildUrl: (t) => `https://api.codetabs.com/v1/proxy?quest=${t}`}
    ];
    let lastError = new Error('No proxies were attempted.');
    for (const proxy of proxies) {
        try {
            const proxyResponse = await fetch(proxy.buildUrl(url), options);
            if (proxyResponse.ok) return proxyResponse;
            lastError = new Error(`Proxy ${proxy.name} returned status ${proxyResponse.status}`);
        } catch (error) { lastError = error instanceof Error ? error : new Error(String(error)); }
    }
    throw new Error(`All proxies failed to fetch the resource. Last error: ${lastError.message}`);
};
```

The browser `fetch` is an oracle `fetchO : String → Opt → FetchOutcome`
(request options are an opaque type `Opt`); `encodeURIComponent` is likewise
environmental.  The returned log lists every request issued, in order, as
(request URL, options) pairs. -/

/-- An HTTP response as far as `smartFetch` inspects it, plus an opaque body
so that distinct responses are distinguishable. -/
structure Response : Type where
  ok : Bool
  status : Int
  body : String
  deriving DecidableEq, Repr

/-- An error thrown by `fetch`: whether it is a `TypeError`, and its message. -/
structure FetchError : Type where
  isTypeError : Bool
  message : String
  deriving DecidableEq, Repr

/-- Outcome of one `fetch` call: a response (of any status) or a thrown error. -/
inductive FetchOutcome : Type
  | resp (r : Response) : FetchOutcome
  | err (e : FetchError) : FetchOutcome
  deriving DecidableEq, Repr

/-- A proxy descriptor `{name, buildUrl}`. -/
structure ProxyDesc : Type where
  name : String
  buildUrl : String → String

def corsProxyIo : ProxyDesc :=
  ⟨"corsproxy.io", fun targetUrl => "https://corsproxy.io/?" ++ targetUrl⟩

def allOriginsProxy (encodeURIComponent : String → String) : ProxyDesc :=
  ⟨"allorigins.win",
    fun targetUrl => "https://api.allorigins.win/raw?url=" ++ encodeURIComponent targetUrl⟩

def thingProxy : ProxyDesc :=
  ⟨"thingproxy.freeboard.io", fun targetUrl => "https://thingproxy.freeboard.io/fetch/" ++ targetUrl⟩

def codeTabsProxy : ProxyDesc :=
  ⟨"CodeTabs", fun targetUrl => "https://api.codetabs.com/v1/proxy?quest=" ++ targetUrl⟩

/-- The fixed, ordered proxy list from the source. -/
def proxyList (encodeURIComponent : String → String) : List ProxyDesc :=
  [corsProxyIo, allOriginsProxy encodeURIComponent, thingProxy, codeTabsProxy]

/-- `new Error("Proxy <name> returned status <status>")`. -/
def proxyStatusError (p : ProxyDesc) (r : Response) : FetchError :=
  ⟨false, "Proxy " ++ p.name ++ " returned status " ++ toString r.status⟩

/-- The `lastError` recorded when a proxy attempt fails. -/
def proxyFailure {Opt : Type} (fetchO : String → Opt → FetchOutcome) (url : String)
    (options : Opt) (p : ProxyDesc) : FetchError :=
  match fetchO (p.buildUrl url) options with
  | .resp r => proxyStatusError p r
  | .err e => e

/-- A proxy attempt fails: non-ok response or thrown error. -/
def proxyFails {Opt : Type} (fetchO : String → Opt → FetchOutcome) (url : String)
    (options : Opt) (p : ProxyDesc) : Bool :=
  match fetchO (p.buildUrl url) options with
  | .resp r => !r.ok
  | .err _ => true

/-- `new Error("All proxies failed to fetch the resource. Last error: ...")`. -/
def allProxiesFailedError (lastError : FetchError) : FetchError :=
  ⟨false, "All proxies failed to fetch the resource. Last error: " ++ lastError.message⟩

/-- The value of `lastError` after walking `ps` when every attempt fails. -/
def lastProxyFailure {Opt : Type} (fetchO : String → Opt → FetchOutcome) (url : String)
    (options : Opt) (init : FetchError) (ps : List ProxyDesc) : FetchError :=
  ps.foldl (fun _ q => proxyFailure fetchO url options q) init

/-- The `for (const proxy of proxies)` loop, threading `lastError`. -/
def proxyGo {Opt : Type} (fetchO : String → Opt → FetchOutcome) (url : String) (options : Opt) :
    List ProxyDesc → FetchError → Except FetchError Response × List (String × Opt)
  | [], lastError => (.error (allProxiesFailedError lastError), [])
  | p :: ps, _ =>
    match fetchO (p.buildUrl url) options with
    | .resp r =>
      if r.ok then (.ok r, [(p.buildUrl url, options)])
      else
        let rest := proxyGo fetchO url options ps (proxyStatusError p r)
        (rest.1, (p.buildUrl url, options) :: rest.2)
    | .err e =>
      let rest := proxyGo fetchO url options ps e
      (rest.1, (p.buildUrl url, options) :: rest.2)

/-- `smartFetch(url, options)`: the settled outcome together with the ordered
log of every request issued (direct first, then proxies). -/
def smartFetch {Opt : Type} (fetchO : String → Opt → FetchOutcome)
    (encodeURIComponent : String → String) (url : String) (options : Opt) :
    Except FetchError Response × List (String × Opt) :=
  match fetchO url options with
  | .resp r =>
    if r.ok then (.ok r, [(url, options)])
    else
      let rest := proxyGo fetchO url options (proxyList encodeURIComponent)
        ⟨false, "No proxies were attempted."⟩
      (rest.1, (url, options) :: rest.2)
  | .err e =>
    if e.isTypeError && e.message == "Failed to fetch" then
      let rest := proxyGo fetchO url options (proxyList encodeURIComponent)
        ⟨false, "No proxies were attempted."⟩
      (rest.1, (url, options) :: rest.2)
    else (.error e, [(url, options)])

/-- The direct attempt's outcome sends `smartFetch` into the proxy phase:
a received non-ok response, or a thrown CORS-style `TypeError`. -/
def triggersFallback (o : FetchOutcome) : Prop :=
  (∃ r, o = .resp r ∧ r.ok = false) ∨
  (∃ e, o = .err e ∧ e.isTypeError = true ∧ e.message = "Failed to fetch")

theorem smartFetch_fallback_eq {Opt : Type} (fetchO : String → Opt → FetchOutcome)
    (enc : String → String) (url : String) (options : Opt)
    (htrig : triggersFallback (fetchO url options)) :
    smartFetch fetchO enc url options =
      ((proxyGo fetchO url options (proxyList enc) ⟨false, "No proxies were attempted."⟩).1,
        (url, options) ::
          (proxyGo fetchO url options (proxyList enc) ⟨false, "No proxies were attempted."⟩).2) := by
  rcases htrig with ⟨r, hr, hok⟩ | ⟨e, he, hte, hmsg⟩
  · simp [smartFetch, hr, hok]
  · simp [smartFetch, he, hte, hmsg]

theorem proxyGo_first_ok {Opt : Type} (fetchO : String → Opt → FetchOutcome)
    (url : String) (options : Opt) (p : ProxyDesc) (r : Response)
    (hok : fetchO (p.buildUrl url) options = .resp r) (hr : r.ok = true) :
    ∀ (pre post : List ProxyDesc) (lastError : FetchError),
      (∀ q ∈ pre, proxyFails fetchO url options q = true) →
      proxyGo fetchO url options (pre ++ p :: post) lastError =
        (.ok r, (pre ++ [p]).map (fun q => (q.buildUrl url, options))) := by
  intro pre
  induction pre with
  | nil =>
    intro post lastError _
    simp [proxyGo, hok, hr]
  | cons q rest ih =>
    intro post lastError hfails
    have hq : proxyFails fetchO url options q = true := hfails q (by simp)
    have hrest : ∀ x ∈ rest, proxyFails fetchO url options x = true :=
      fun x hx => hfails x (by simp [hx])
    unfold proxyFails at hq
    cases hqo : fetchO (q.buildUrl url) options with
    | resp s =>
      rw [hqo] at hq
      have hs : s.ok = false := by simpa using hq
      simp [proxyGo, hqo, hs, ih post (proxyStatusError q s) hrest]
    | err e =>
      simp [proxyGo, hqo, ih post e hrest]

theorem proxyGo_all_fail {Opt : Type} (fetchO : String → Opt → FetchOutcome)
    (url : String) (options : Opt) :
    ∀ (ps : List ProxyDesc) (lastError : FetchError),
      (∀ q ∈ ps, proxyFails fetchO url options q = true) →
      proxyGo fetchO url options ps lastError =
        (.error (allProxiesFailedError (lastProxyFailure fetchO url options lastError ps)),
          ps.map (fun q => (q.buildUrl url, options))) := by
  intro ps
  induction ps with
  | nil => intro lastError _; rfl
  | cons q rest ih =>
    intro lastError hfails
    have hq : proxyFails fetchO url options q = true := hfails q (by simp)
    have hrest : ∀ x ∈ rest, proxyFails fetchO url options x = true :=
      fun x hx => hfails x (by simp [hx])
    unfold proxyFails at hq
    have hlast : lastProxyFailure fetchO url options lastError (q :: rest) =
        lastProxyFailure fetchO url options (proxyFailure fetchO url options q) rest := rfl
    cases hqo : fetchO (q.buildUrl url) options with
    | resp s =>
      rw [hqo] at hq
      have hs : s.ok = false := by simpa using hq
      have hpf : proxyFailure fetchO url options q = proxyStatusError q s := by
        unfold proxyFailure; rw [hqo]
      rw [hlast, hpf]
      simp [proxyGo, hqo, hs, ih (proxyStatusError q s) hrest]
    | err e =>
      have hpf : proxyFailure fetchO url options q = e := by
        unfold proxyFailure; rw [hqo]
      rw [hlast, hpf]
      simp [proxyGo, hqo, ih e hrest]

/-- C7: if the direct fetch throws an error that does not match the
CORS-style signature (a `TypeError` with message "Failed to fetch"),
`smartFetch` rejects immediately with that original error, having issued
only the single direct request — zero proxies contacted. -/
theorem smartFetch_nonCors_propagates {Opt : Type} (fetchO : String → Opt → FetchOutcome)
    (enc : String → String) (url : String) (options : Opt) (e : FetchError)
    (hdirect : fetchO url options = .err e)
    (hnot : ¬ (e.isTypeError = true ∧ e.message = "Failed to fetch")) :
    smartFetch fetchO enc url options = (.error e, [(url, options)]) := by
  have hb : (e.isTypeError && (e.message == "Failed to fetch")) = false := by
    rcases Bool.eq_false_or_eq_true (e.isTypeError && (e.message == "Failed to fetch")) with
      h | h
    · exact absurd (by simpa [Bool.and_eq_true, beq_iff_eq] using h) hnot
    · exact h
  simp [smartFetch, hdirect, hb]

/-- C7 (witness): a thrown non-`TypeError` propagates untouched; the log
shows only the direct request. -/
theorem smartFetch_nonCors_propagates_witness :
    smartFetch (fun _ _ => FetchOutcome.err ⟨false, "ECONNREFUSED"⟩) id "http://t" () =
      (.error ⟨false, "ECONNREFUSED"⟩, [("http://t", ())]) :=
  smartFetch_nonCors_propagates (fun _ _ => FetchOutcome.err ⟨false, "ECONNREFUSED"⟩)
    id "http://t" () ⟨false, "ECONNREFUSED"⟩ rfl (by simp)

/-- C8: once `smartFetch` enters the proxy fallback phase it walks the
declared proxy list in its fixed order, issuing every request with the same
options: (i) if all proxies before `p` fail and `p` responds with a success
status, that response is returned and no later proxy is contacted — the log
is exactly the direct URL followed by the proxies up to and including `p`;
(ii) if every proxy attempt fails (non-ok response or thrown error), the
call rejects with the single aggregate error whose message carries the last
observed failure's message (that of the final proxy, CodeTabs), the log
showing all four proxies in declared order. -/
theorem smartFetch_proxy_order {Opt : Type} (fetchO : String → Opt → FetchOutcome)
    (enc : String → String) (url : String) (options : Opt)
    (htrig : triggersFallback (fetchO url options)) :
    (∀ pre p post r, proxyList enc = pre ++ p :: post →
      (∀ q ∈ pre, proxyFails fetchO url options q = true) →
      fetchO (p.buildUrl url) options = .resp r → r.ok = true →
      smartFetch fetchO enc url options =
        (.ok r, (url, options) :: (pre ++ [p]).map (fun q => (q.buildUrl url, options)))) ∧
    ((∀ q ∈ proxyList enc, proxyFails fetchO url options q = true) →
      smartFetch fetchO enc url options =
        (.error ⟨false, "All proxies failed to fetch the resource. Last error: " ++
            (proxyFailure fetchO url options codeTabsProxy).message⟩,
          (url, options) :: (proxyList enc).map (fun q => (q.buildUrl url, options)))) := by
  constructor
  · intro pre p post r hsplit hpre hok hr
    rw [smartFetch_fallback_eq fetchO enc url options htrig, hsplit,
      proxyGo_first_ok fetchO url options p r hok hr pre post _ hpre]
  · intro hall
    rw [smartFetch_fallback_eq fetchO enc url options htrig,
      proxyGo_all_fail fetchO url options (proxyList enc) _ hall]
    rfl

/-- Concrete browser environment for the C8 witness: the direct fetch
throws the CORS-style error, the first proxy answers 500, the second
succeeds. -/
def demoFetchOracle : String → Unit → FetchOutcome := fun u _ =>
  if u = "http://t" then .err ⟨true, "Failed to fetch"⟩
  else if u = "https://corsproxy.io/?http://t" then .resp ⟨false, 500, "p1"⟩
  else if u = "https://api.allorigins.win/raw?url=http://t" then .resp ⟨true, 200, "p2"⟩
  else .resp ⟨true, 200, "other"⟩

/-- C8 (witness): the second proxy's response is returned; the third and
fourth proxies are never contacted. -/
theorem smartFetch_proxy_order_witness :
    smartFetch demoFetchOracle id "http://t" () =
      (.ok ⟨true, 200, "p2"⟩,
        ("http://t", ()) :: ([corsProxyIo, allOriginsProxy id]).map
          (fun q => (q.buildUrl "http://t", ()))) :=
  (smartFetch_proxy_order demoFetchOracle id "http://t" ()
      (Or.inr ⟨⟨true, "Failed to fetch"⟩, rfl, rfl, rfl⟩)).1
    [corsProxyIo] (allOriginsProxy id) [thingProxy, codeTabsProxy] ⟨true, 200, "p2"⟩
    rfl (by decide) rfl rfl

end WpOptimizer

namespace WpOptimizer

/-! ## Sitemap Resolver (`parseSitemap`, src/index.tsx:970-1010)

```js
const parseSitemap = async (url, visited = new Set()) => {
    if (visited.has(url)) return [];
    visited.add(url);
    try {
        const response = await smartFetch(url);
        if (!response.ok) { return []; } // Fail gracefully for this URL
        const text = await response.text();
        const xmlDoc = new DOMParser().parseFromString(text, "application/xml");
        if (xmlDoc.getElementsByTagName("parsererror").length > 0) { return []; }
        if (sitemapindex root) {
            const sitemapUrls = [...loc entries];
            const results = await Promise.all(sitemapUrls.map(u => parseSitemap(u, visited)));
            return results.flat();
        }
        if (urlset root) { return [...loc entries]; }
        return [];
    } catch (error) { return []; }
};
```

The environment (`smartFetch` + `DOMParser`) is a finite association list
`net` from sitemap URL to what fetching-and-parsing it yields (`SitemapNode`);
a URL outside `net` behaves as a failing fetch.  The recursion is driven by
fuel; `sitemap_resolution_terminates` shows any fuel above the number of
unvisited network nodes suffices, so the fuel is an artifact, not a bound the
source has.  `Promise.all` over the children is modelled as the sequential
left-to-right schedule (JavaScript runs each child synchronously up to its
first await, and the `visited` Set is shared by reference).  Every branch of
the body returns (all failures are caught), so the embedding has no error
channel.  Results are triples (collected URLs, visited set after, log of
URLs fetched). -/

/-- What fetching and XML-parsing one sitemap URL yields, as far as
`parseSitemap` inspects it: a rejected fetch (`fetchFail`), a non-ok
response, a `parsererror` document, a `sitemapindex` root with child `loc`
entries, a `urlset` root with content `loc` entries, or a document with
neither recognized root. -/
inductive SitemapNode : Type
  | fetchFail : SitemapNode
  | notOkResp : SitemapNode
  | malformed : SitemapNode
  | indexDoc (children : List String) : SitemapNode
  | urlsetDoc (urls : List String) : SitemapNode
  | neither : SitemapNode
  deriving DecidableEq, Repr

/-- Walks a list of child sitemap URLs left to right with the shared
visited set, threading it through `f` (the recursion at one level deeper)
and concatenating the collected URL lists (`results.flat()`). -/
def goListWith
    (f : String → List String → Option (List String × List String × List String)) :
    List String → List String → Option (List String × List String × List String)
  | [], visited => some ([], visited, [])
  | c :: cs, visited =>
    (f c visited).bind fun a =>
      (goListWith f cs a.2.1).bind fun b =>
        some (a.1 ++ b.1, b.2.1, a.2.2 ++ b.2.2)

/-- One node of the recursive walk: the body of `parseSitemap(url, visited)`. -/
def goSitemap (net : List (String × SitemapNode)) :
    Nat → String → List String → Option (List String × List String × List String)
  | 0, _, _ => none
  | fuel + 1, url, visited =>
    if url ∈ visited then some ([], visited, [])
    else
      match net.lookup url with
      | none => some ([], url :: visited, [url])
      | some .fetchFail => some ([], url :: visited, [url])
      | some .notOkResp => some ([], url :: visited, [url])
      | some .malformed => some ([], url :: visited, [url])
      | some (.indexDoc children) =>
        (goListWith (goSitemap net fuel) children (url :: visited)).map
          (fun r => (r.1, r.2.1, url :: r.2.2))
      | some (.urlsetDoc urls) => some (urls, url :: visited, [url])
      | some .neither => some ([], url :: visited, [url])

/-- The `Promise.all` fan-out over an index's children at depth budget
`fuel`, in the sequential left-to-right schedule. -/
def goSitemapList (net : List (String × SitemapNode)) (fuel : Nat) :
    List String → List String → Option (List String × List String × List String) :=
  goListWith (goSitemap net fuel)

/-- The number of network nodes not yet visited: the quantity the recursion
strictly decreases when it fetches an index node. -/
def freshCard (net : List (String × SitemapNode)) (visited : List String) : Nat :=
  ((net.map Prod.fst).toFinset \ visited.toFinset).card

/-- `parseSitemap(url)` at the top level: fresh empty visited set, and fuel
that `sitemap_resolution_terminates` proves sufficient. -/
def parseSitemap (net : List (String × SitemapNode)) (url : String) :
    Option (List String) :=
  (goSitemap net (net.length + 1) url []).map (fun r => r.1)

theorem goListWith_mono
    (f : String → List String → Option (List String × List String × List String))
    (hf : ∀ c v r, f c v = some r → v ⊆ r.2.1) :
    ∀ (cs : List String) (v : List String) r,
      goListWith f cs v = some r → v ⊆ r.2.1 := by
  intro cs
  induction cs with
  | nil =>
    intro v r h
    simp only [goListWith] at h
    cases h
    exact List.Subset.refl v
  | cons c cs ih =>
    intro v r h
    simp only [goListWith] at h
    rcases Option.bind_eq_some.mp h with ⟨a, hfc, h2⟩
    rcases Option.bind_eq_some.mp h2 with ⟨b, hrest, h3⟩
    cases h3
    exact (hf c v a hfc).trans (ih a.2.1 b hrest)

theorem goSitemap_mono (net : List (String × SitemapNode)) :
    ∀ (fuel : Nat) (url : String) (v : List String) r,
      goSitemap net fuel url v = some r → v ⊆ r.2.1 := by
  intro fuel
  induction fuel with
  | zero => intro url v r h; cases h
  | succ n ih =>
    intro url v r h
    simp only [goSitemap] at h
    by_cases hv : url ∈ v
    · rw [if_pos hv] at h
      cases h
      exact List.Subset.refl v
    · rw [if_neg hv] at h
      have hsub : v ⊆ url :: v := List.subset_cons_self _ _
      cases hl : net.lookup url with
      | none => rw [hl] at h; cases h; exact hsub
      | some d =>
        rw [hl] at h
        cases d with
        | fetchFail => cases h; exact hsub
        | notOkResp => cases h; exact hsub
        | malformed => cases h; exact hsub
        | neither => cases h; exact hsub
        | urlsetDoc urls => cases h; exact hsub
        | indexDoc children =>
          rcases Option.map_eq_some'.mp h with ⟨r', hr', hrr⟩
          subst hrr
          exact hsub.trans (goListWith_mono (goSitemap net n) (ih) children (url :: v) r' hr')

theorem mem_keys_of_lookup (net : List (String × SitemapNode)) (url : String)
    (d : SitemapNode) (h : net.lookup url = some d) : url ∈ net.map Prod.fst := by
  induction net with
  | nil => cases h
  | cons p rest ih =>
    rw [List.lookup] at h
    cases hk : (url == p.1) with
    | true =>
      simp only [List.map_cons, List.mem_cons]
      exact Or.inl (beq_iff_eq.mp hk)
    | false =>
      simp only [hk] at h
      exact List.mem_cons_of_mem _ (ih h)

theorem freshCard_le_of_subset (net : List (String × SitemapNode))
    (v v' : List String) (hsub : v ⊆ v') :
    freshCard net v' ≤ freshCard net v := by
  apply Finset.card_le_card
  apply Finset.sdiff_subset_sdiff (Finset.Subset.refl _)
  intro x hx
  rw [List.mem_toFinset] at hx ⊢
  exact hsub hx

theorem freshCard_lt_of_fetch (net : List (String × SitemapNode))
    (url : String) (v : List String) (hnv : url ∉ v)
    (hdom : url ∈ net.map Prod.fst) :
    freshCard net (url :: v) < freshCard net v := by
  unfold freshCard
  have hmem : url ∈ (net.map Prod.fst).toFinset \ v.toFinset := by
    rw [Finset.mem_sdiff, List.mem_toFinset, List.mem_toFinset]
    exact ⟨hdom, hnv⟩
  have hcons : (url :: v).toFinset = insert url v.toFinset := List.toFinset_cons
  rw [hcons, Finset.sdiff_insert]
  exact Finset.card_erase_lt_of_mem hmem

theorem goSitemapList_isSome (net : List (String × SitemapNode)) (fuel : Nat)
    (hnode : ∀ url v, freshCard net v < fuel → (goSitemap net fuel url v).isSome) :
    ∀ (cs : List String) (v : List String), freshCard net v < fuel →
      (goSitemapList net fuel cs v).isSome := by
  intro cs
  induction cs with
  | nil => intro v _; simp [goSitemapList, goListWith]
  | cons c cs ih =>
    intro v hv
    have h1 := hnode c v hv
    cases hfc : goSitemap net fuel c v with
    | none => rw [hfc] at h1; cases h1
    | some a =>
      have hsub : v ⊆ a.2.1 := goSitemap_mono net fuel c v a hfc
      have hv1 : freshCard net a.2.1 < fuel :=
        Nat.lt_of_le_of_lt (freshCard_le_of_subset net v a.2.1 hsub) hv
      have h2 := ih a.2.1 hv1
      cases hrest : goSitemapList net fuel cs a.2.1 with
      | none => rw [hrest] at h2; cases h2
      | some b =>
        simp only [goSitemapList] at hrest ⊢
        simp [goListWith, hfc, hrest]

theorem goSitemap_isSome (net : List (String × SitemapNode)) :
    ∀ (fuel : Nat) (url : String) (v : List String),
      freshCard net v < fuel → (goSitemap net fuel url v).isSome := by
  intro fuel
  induction fuel with
  | zero => intro url v h; cases h
  | succ n ih =>
    intro url v hv
    simp only [goSitemap]
    by_cases hmem : url ∈ v
    · rw [if_pos hmem]; rfl
    · rw [if_neg hmem]
      cases hl : net.lookup url with
      | none => rfl
      | some d =>
        cases d with
        | fetchFail => rfl
        | notOkResp => rfl
        | malformed => rfl
        | neither => rfl
        | urlsetDoc urls => rfl
        | indexDoc children =>
          have hdom : url ∈ net.map Prod.fst := mem_keys_of_lookup net url _ hl
          have hlt : freshCard net (url :: v) < n := by
            have := freshCard_lt_of_fetch net url v hmem hdom
            omega
          have := goSitemapList_isSome net n (fun u w hw => ih u w hw) children
            (url :: v) hlt
          simp only [goSitemapList] at this
          cases hgo : goListWith (goSitemap net n) children (url :: v) with
          | none => rw [hgo] at this; cases this
          | some r' =>
            show (Option.map (fun r => (r.1, r.2.1, url :: r.2.2))
                (goListWith (goSitemap net n) children (url :: v))).isSome = true
            rw [hgo]
            rfl

theorem freshCard_nil_lt (net : List (String × SitemapNode)) :
    freshCard net [] < net.length + 1 := by
  unfold freshCard
  have h1 : ([] : List String).toFinset = ∅ := rfl
  rw [h1, Finset.sdiff_empty]
  calc (net.map Prod.fst).toFinset.card ≤ (net.map Prod.fst).length :=
        List.toFinset_card_le _
    _ = net.length := List.length_map _ _
    _ < net.length + 1 := Nat.lt_succ_self _

theorem goListWith_log
    (f : String → List String → Option (List String × List String × List String))
    (hmono : ∀ c v r, f c v = some r → v ⊆ r.2.1)
    (hlog : ∀ c v r, f c v = some r →
      r.2.2.Nodup ∧ ∀ x ∈ r.2.2, x ∈ r.2.1 ∧ x ∉ v) :
    ∀ (cs : List String) (v : List String) r, goListWith f cs v = some r →
      r.2.2.Nodup ∧ ∀ x ∈ r.2.2, x ∈ r.2.1 ∧ x ∉ v := by
  intro cs
  induction cs with
  | nil =>
    intro v r h
    simp only [goListWith] at h
    cases h
    exact ⟨List.nodup_nil, by simp⟩
  | cons c cs ih =>
    intro v r h
    simp only [goListWith] at h
    rcases Option.bind_eq_some.mp h with ⟨a, hfc, h2⟩
    rcases Option.bind_eq_some.mp h2 with ⟨b, hrest, h3⟩
    cases h3
    have hhead := hlog c v a hfc
    have htail := ih a.2.1 b hrest
    have hv1v2 : a.2.1 ⊆ b.2.1 := goListWith_mono f hmono cs a.2.1 b hrest
    have hvv1 : v ⊆ a.2.1 := hmono c v a hfc
    constructor
    · apply List.Nodup.append hhead.1 htail.1
      intro x hx1 hx2
      exact (htail.2 x hx2).2 ((hhead.2 x hx1).1)
    · intro x hx
      rcases List.mem_append.mp hx with hx1 | hx2
      · exact ⟨hv1v2 (hhead.2 x hx1).1, (hhead.2 x hx1).2⟩
      · exact ⟨(htail.2 x hx2).1, fun hxv => (htail.2 x hx2).2 (hvv1 hxv)⟩

theorem goSitemap_log (net : List (String × SitemapNode)) :
    ∀ (fuel : Nat) (url : String) (v : List String) r,
      goSitemap net fuel url v = some r →
      r.2.2.Nodup ∧ ∀ x ∈ r.2.2, x ∈ r.2.1 ∧ x ∉ v := by
  intro fuel
  induction fuel with
  | zero => intro url v r h; cases h
  | succ n ih =>
    intro url v r h
    simp only [goSitemap] at h
    by_cases hv : url ∈ v
    · rw [if_pos hv] at h
      cases h
      exact ⟨List.nodup_nil, by simp⟩
    · rw [if_neg hv] at h
      have hsingle : ∀ (w : List String), w = url :: v →
          (List.Nodup [url] ∧ ∀ x ∈ [url], x ∈ w ∧ x ∉ v) := by
        intro w hw
        subst hw
        refine ⟨List.nodup_singleton _, ?_⟩
        intro x hx
        rw [List.mem_singleton] at hx
        subst hx
        exact ⟨List.mem_cons_self _ _, hv⟩
      cases hl : net.lookup url with
      | none => rw [hl] at h; cases h; exact hsingle _ rfl
      | some d =>
        rw [hl] at h
        cases d with
        | fetchFail => cases h; exact hsingle _ rfl
        | notOkResp => cases h; exact hsingle _ rfl
        | malformed => cases h; exact hsingle _ rfl
        | neither => cases h; exact hsingle _ rfl
        | urlsetDoc urls => cases h; exact hsingle _ rfl
        | indexDoc children =>
          rcases Option.map_eq_some'.mp h with ⟨r', hr', hrr⟩
          subst hrr
          have hrec := goListWith_log (goSitemap net n) (goSitemap_mono net n) (ih)
            children (url :: v) r' hr'
          have hmono' : url :: v ⊆ r'.2.1 :=
            goListWith_mono (goSitemap net n) (goSitemap_mono net n) children _ _ hr'
          constructor
          · refine List.Nodup.cons ?_ hrec.1
            intro hurl
            exact (hrec.2 url hurl).2 (List.mem_cons_self _ _)
          · intro x hx
            rcases List.mem_cons.mp hx with hx | hx
            · subst hx
              exact ⟨hmono' (List.mem_cons_self _ _), hv⟩
            · exact ⟨(hrec.2 x hx).1, fun hxv => (hrec.2 x hx).2 (List.mem_cons_of_mem _ hxv)⟩

/-- A sitemap network where the same content URL "u" is listed by two
different child sitemaps of the index at "A". -/
def sitemapNetDup : List (String × SitemapNode) :=
  [("A", .indexDoc ["B", "C"]), ("B", .urlsetDoc ["u"]), ("C", .urlsetDoc ["u"])]

/-- C3 (counterexample): `parseSitemap` aggregates leaf URL lists with
`results.flat()`, a concatenation: resolving the index "A" whose children
"B" and "C" both list the content URL "u" returns `["u", "u"]`, in which "u"
occurs twice — not a de-duplicated set. -/
theorem sitemap_duplicate_leaf_urls :
    parseSitemap sitemapNetDup "A" = some ["u", "u"] ∧
    ¬ (["u", "u"] : List String).Nodup := by
  exact ⟨by rfl, by decide⟩

/-- C3 (amended): the de-duplication `parseSitemap` performs is at the
sitemap-node level only: within one resolution no sitemap URL is ever
fetched twice (the fetch log is duplicate-free, and never revisits an
already-visited URL), while the leaf content URL lists are concatenated, so
a content URL listed in two different child sitemaps occurs once per
listing. -/
theorem sitemap_node_level_dedup (net : List (String × SitemapNode))
    (fuel : Nat) (url : String) (visited : List String)
    (r : List String × List String × List String)
    (h : goSitemap net fuel url visited = some r) :
    r.2.2.Nodup ∧ ∀ x ∈ r.2.2, x ∉ visited :=
  ⟨(goSitemap_log net fuel url visited r h).1,
    fun x hx => ((goSitemap_log net fuel url visited r h).2 x hx).2⟩

/-- C3 (witness): in the duplicate-listing network the fetch log is
`["A", "B", "C"]` — each sitemap node fetched exactly once. -/
theorem sitemap_node_level_dedup_witness :
    (List.Nodup ["A", "B", "C"]) ∧ (∀ x ∈ (["A", "B", "C"] : List String), x ∉ ([] : List String)) :=
  sitemap_node_level_dedup sitemapNetDup 4 "A" []
    (["u", "u"], ["C", "B", "A"], ["A", "B", "C"]) (by rfl)

/-- The fetch-and-parse outcomes that make one sitemap node fail: rejected
fetch (a URL outside the network also rejects), non-ok response, XML parse
error, or a document with neither recognized root. -/
def failsAtNode (o : Option SitemapNode) : Prop :=
  o = none ∨ o = some .fetchFail ∨ o = some .notOkResp ∨
  o = some .malformed ∨ o = some .neither

/-- C4: a failure at an individual sitemap node makes that node contribute
the empty list — it resolves to `([], visited ∪ {url})` instead of raising;
within a sibling list the failed head leaves the processing of the remaining
siblings untouched (their results are exactly those of the rest of the
walk); and `parseSitemap` as invoked at the top level always resolves (every
failure, including the very first fetch rejecting, is caught by the body's
`try/catch`, so the embedding has no error channel at all). -/
theorem sitemap_failure_isolated (net : List (String × SitemapNode))
    (fuel : Nat) (url : String) (visited : List String) (cs : List String)
    (hnv : url ∉ visited) (hfail : failsAtNode (net.lookup url)) :
    goSitemap net (fuel + 1) url visited = some ([], url :: visited, [url]) ∧
    goSitemapList net (fuel + 1) (url :: cs) visited =
      (goSitemapList net (fuel + 1) cs (url :: visited)).map
        (fun r => (r.1, r.2.1, url :: r.2.2)) ∧
    (∀ (net' : List (String × SitemapNode)) (url' : String),
      (parseSitemap net' url').isSome) := by
  have ha : goSitemap net (fuel + 1) url visited = some ([], url :: visited, [url]) := by
    simp only [goSitemap]
    rw [if_neg hnv]
    rcases hfail with h | h | h | h | h <;> rw [h]
  refine ⟨ha, ?_, ?_⟩
  · cases hr : goListWith (goSitemap net (fuel + 1)) cs (url :: visited) with
    | none => simp [goSitemapList, goListWith, ha, hr]
    | some b => simp [goSitemapList, goListWith, ha, hr]
  · intro net' url'
    have hs := goSitemap_isSome net' (net'.length + 1) url' [] (freshCard_nil_lt net')
    unfold parseSitemap
    cases hgo : goSitemap net' (net'.length + 1) url' [] with
    | none => rw [hgo] at hs; cases hs
    | some r => rfl

/-- C4 (witness): a network whose only node "A" has a rejecting fetch. -/
theorem sitemap_failure_isolated_witness :
    goSitemap [("A", SitemapNode.fetchFail)] 1 "A" [] = some ([], ["A"], ["A"]) ∧
    goSitemapList [("A", SitemapNode.fetchFail)] 1 ["A", "B"] [] =
      (goSitemapList [("A", SitemapNode.fetchFail)] 1 ["B"] ["A"]).map
        (fun r => (r.1, r.2.1, "A" :: r.2.2)) ∧
    (∀ (net' : List (String × SitemapNode)) (url' : String),
      (parseSitemap net' url').isSome) :=
  sitemap_failure_isolated [("A", SitemapNode.fetchFail)] 0 "A" [] ["B"]
    (by decide) (Or.inr (Or.inl (by rfl)))

/-- C9: the walk terminates whenever the fuel exceeds the number of
unvisited network nodes (so the recursion depth is bounded and the fuel an
artifact — no infinite recursion even on cyclic indexes); an already-visited
URL short-circuits to the empty contribution with the visited set unchanged;
the visited set threaded through the call only ever grows; and resolving the
self-listing index `A -> [A, B]` returns exactly the URLs of the non-self
child `B`. -/
theorem sitemap_resolution_terminates (net : List (String × SitemapNode))
    (fuel : Nat) (url : String) (visited : List String)
    (hfuel : freshCard net visited < fuel) :
    (goSitemap net fuel url visited).isSome ∧
    (∀ f, url ∈ visited → goSitemap net (f + 1) url visited = some ([], visited, [])) ∧
    (∀ r, goSitemap net fuel url visited = some r → visited ⊆ r.2.1) ∧
    parseSitemap [("A", SitemapNode.indexDoc ["A", "B"]),
        ("B", SitemapNode.urlsetDoc ["u1", "u2"])] "A" = some ["u1", "u2"] := by
  refine ⟨goSitemap_isSome net fuel url visited hfuel, ?_,
    fun r h => goSitemap_mono net fuel url visited r h, by rfl⟩
  intro f hmem
  simp only [goSitemap]
  rw [if_pos hmem]

/-- C9 (witness): on the self-listing network itself, with fuel 3 and an
empty visited set. -/
theorem sitemap_resolution_terminates_witness :
    (goSitemap [("A", SitemapNode.indexDoc ["A", "B"]),
        ("B", SitemapNode.urlsetDoc ["u1", "u2"])] 3 "A" []).isSome ∧
    (∀ f, "A" ∈ ([] : List String) →
      goSitemap [("A", SitemapNode.indexDoc ["A", "B"]),
        ("B", SitemapNode.urlsetDoc ["u1", "u2"])] (f + 1) "A" [] = some ([], [], [])) ∧
    (∀ r, goSitemap [("A", SitemapNode.indexDoc ["A", "B"]),
        ("B", SitemapNode.urlsetDoc ["u1", "u2"])] 3 "A" [] = some r →
      ([] : List String) ⊆ r.2.1) ∧
    parseSitemap [("A", SitemapNode.indexDoc ["A", "B"]),
        ("B", SitemapNode.urlsetDoc ["u1", "u2"])] "A" = some ["u1", "u2"] :=
  sitemap_resolution_terminates [("A", SitemapNode.indexDoc ["A", "B"]),
    ("B", SitemapNode.urlsetDoc ["u1", "u2"])] 3 "A" [] (by decide)

end WpOptimizer
